import Mathlib

/-!
Verification of the process-supervision core (`DaemonManager`) of the
argo-go repository.  The definitions below are a shallow embedding of the
Go methods of the `DaemonManager` variant that carries both `checkTimers`
and `restartTimers` maps (the variant cited by all claims): `StartProcess`,
`monitorProcessExit`, `scheduleRestart`, `startHealthCheck`,
`checkProcessHealth`, `SetTunnelInfo`, `RestartProcess` and `Cleanup`.

Modelling conventions:
* Go maps become functions `String → Option _`.
* `time.Timer` values become records in a list `armed` of timers that have
  been created and neither stopped nor fired; the Go maps
  `checkTimers`/`restartTimers` become `String → Option Nat` holding the
  identifier of the most recently stored timer.
* OS-level facts that the Go code observes (a `cmd.Start` failure, the pid
  of the spawned child, the error returned by `cmd.Wait`, the error of the
  zero-signal probe, the current time) are explicit parameters.
* Ghost state (never read by the embedded code) records which child
  handles are OS-alive (`alive`), which exit-monitor goroutines are still
  pending (`monitors`), which handles received a supervisor kill signal
  (`killedK`) and which names ever had a successful start (`everStarted`).
* Go `int64` arithmetic on `time.Duration` is modelled on `Int` with an
  explicit wrap `int64wrap` and Go's shift semantics (`goShl1`).
-/

namespace ArgoGo

/-- Daemon-relevant fields of the source `Config` struct (Go `int`s,
milliseconds for the two delays). -/
structure Config where
  DaemonCheckInterval : Int
  DaemonMaxRetries : Int
  DaemonRestartDelay : Int
deriving DecidableEq, Repr

/-- The daemon-relevant defaults of `getDefaultConfig`:
`DaemonCheckInterval: 30000`, `DaemonMaxRetries: 5`,
`DaemonRestartDelay: 10000`. -/
def defaultConfig : Config :=
  { DaemonCheckInterval := 30000, DaemonMaxRetries := 5, DaemonRestartDelay := 10000 }

/-- The source `ProcessStatus` struct.  `LastExit` is `none` until the
first recorded exit (Go zero `time.Time`). -/
structure ProcessStatus where
  Running : Bool
  Retries : Nat
  LastStart : Nat
  LastExit : Option Nat
  PID : Nat
  Name : String
  Type_ : String
  Domain : String
deriving DecidableEq, Repr

/-- An `exec.Cmd` handle as tracked in `dm.processes`, with a ghost handle
identifier `hid` distinguishing incarnations. -/
structure GoCmd where
  command : String
  args : List String
  pid : Nat
  hid : Nat
deriving DecidableEq, Repr

/-- The two kinds of one-shot timers the manager arms. -/
inductive TimerKind where
  | chk : TimerKind
  | rst : TimerKind
deriving DecidableEq, Repr

/-- A created-and-still-armed `time.Timer`: identifier, the name it was
armed for, its kind, and the delay (in nanoseconds, as a Go
`time.Duration`) it was armed with. -/
structure TimerRec where
  tid : Nat
  name : String
  kind : TimerKind
  delayNs : Int
deriving DecidableEq, Repr

/-- State of one `DaemonManager` plus ghost observation state. -/
structure DMState where
  cfg : Config
  processes : String → Option GoCmd
  status : String → Option ProcessStatus
  checkTimers : String → Option Nat
  restartTimers : String → Option Nat
  armed : List TimerRec
  nextTid : Nat
  nextHid : Nat
  alive : List (Nat × String)
  monitors : List (Nat × String)
  killedK : Nat → Bool
  everStarted : String → Bool
  tunnelType : String
  tunnelDomain : String
  cancelled : Bool

/-- Point update of a string-keyed map. -/
def updMap {α : Type} (m : String → Option α) (k : String) (v : Option α) :
    String → Option α :=
  fun q => if q = k then v else m q

/-- `timer.Stop()` on the timer referenced by a map entry: the referenced
timer (if any) is removed from the armed set. -/
def stopTid (armed : List TimerRec) : Option Nat → List TimerRec
  | some tid => armed.filter (fun t => decide (t.tid ≠ tid))
  | none => armed

/-- Two's-complement wrap of an integer into the `Int64` range, used to
model Go `int64` (`time.Duration`) arithmetic. -/
def int64wrap (n : Int) : Int :=
  (n + 2 ^ 63) % 2 ^ 64 - 2 ^ 63

/-- Go's `1 << sh` on `int64` for a `uint` shift count: zero once the
count reaches the bit width, otherwise a wrapped power of two. -/
def goShl1 (sh : Nat) : Int :=
  if 64 ≤ sh then 0 else int64wrap (2 ^ sh)

/-- Go's `uint(retries - 1)` for a non-negative `int` value of
`status.Retries`: wraps to `2^64 - 1` when `retries = 0`. -/
def shiftOf (retries : Nat) : Nat :=
  if retries = 0 then 2 ^ 64 - 1 else retries - 1

/-- `time.Duration(ms) * time.Millisecond` in nanoseconds on `int64`. -/
def goDurationMs (ms : Int) : Int :=
  int64wrap (ms * 1000000)

/-- The backoff delay computed by `scheduleRestart`:
`time.Duration(DaemonRestartDelay) * time.Millisecond *
time.Duration(1 << uint(retries-1))`, then capped to `60 * time.Second`
when strictly above it. -/
def goRestartDelayNs (baseMs : Int) (retries : Nat) : Int :=
  let d := int64wrap (goDurationMs baseMs * goShl1 (shiftOf retries))
  if d > 60 * 1000000000 then 60 * 1000000000 else d

/-- `NewDaemonManager`: empty maps, live context. -/
def initDM (cfg : Config) : DMState where
  cfg := cfg
  processes := fun _ => none
  status := fun _ => none
  checkTimers := fun _ => none
  restartTimers := fun _ => none
  armed := []
  nextTid := 0
  nextHid := 0
  alive := []
  monitors := []
  killedK := fun _ => false
  everStarted := fun _ => false
  tunnelType := ""
  tunnelDomain := ""
  cancelled := false

/-- `startHealthCheck(name)`: stop the timer currently stored in
`checkTimers[name]`, arm a fresh one-shot timer with delay
`DaemonCheckInterval` milliseconds, store it. -/
def startHealthCheckF (s : DMState) (name : String) : DMState :=
  let armed1 := stopTid s.armed (s.checkTimers name)
  let t : TimerRec :=
    { tid := s.nextTid, name := name, kind := TimerKind.chk,
      delayNs := goDurationMs s.cfg.DaemonCheckInterval }
  { s with armed := t :: armed1,
           checkTimers := updMap s.checkTimers name (some s.nextTid),
           nextTid := s.nextTid + 1 }

/-- `scheduleRestart(name)`: stop the timer stored in
`restartTimers[name]`; if no status record exists, return; otherwise arm a
fresh one-shot timer with the exponential-backoff delay and store it.
In this variant the timer callback only logs; it relaunches nothing, which
is why firing a restart timer is a no-op in `fireTimerF` below. -/
def scheduleRestartF (s : DMState) (name : String) : DMState :=
  let s1 : DMState := { s with armed := stopTid s.armed (s.restartTimers name) }
  match s1.status name with
  | none => s1
  | some st =>
    let t : TimerRec :=
      { tid := s1.nextTid, name := name, kind := TimerKind.rst,
        delayNs := goRestartDelayNs s1.cfg.DaemonRestartDelay st.Retries }
    { s1 with armed := t :: s1.armed,
              restartTimers := updMap s1.restartTimers name (some s1.nextTid),
              nextTid := s1.nextTid + 1 }

/-- The first block of `StartProcess`: if a handle is already tracked for
`name`, send it a kill signal (`cmd.Process.Kill()`), so it stops being
OS-alive.  The map entry is not removed. -/
def killTrackedF (s : DMState) (name : String) : DMState :=
  match s.processes name with
  | some old =>
      { s with alive := s.alive.filter (fun p => decide (p.1 ≠ old.hid)),
               killedK := fun h => s.killedK h || decide (h = old.hid) }
  | none => s

/-- `StartProcess(name, command, args)`: if a handle is already tracked
for `name`, kill it; create and start the new command (`launchOk` tells
whether `cmd.Start()` succeeded and `pid` is the pid the OS assigned); on
success track the handle, install a fresh status record (copying the
tunnel tags for the name "tunnel"), arm a health check, and spawn the
exit-monitor goroutine.  Returns `true` iff the start succeeded. -/
def startProcessF (s : DMState) (name command : String) (args : List String)
    (launchOk : Bool) (pid now : Nat) : Bool × DMState :=
  let s1 : DMState := killTrackedF s name
  if launchOk then
    let c : GoCmd := { command := command, args := args, pid := pid, hid := s1.nextHid }
    let st0 : ProcessStatus :=
      { Running := true, Retries := 0, LastStart := now, LastExit := none,
        PID := pid, Name := name, Type_ := "", Domain := "" }
    let st : ProcessStatus :=
      if name = "tunnel" then
        { st0 with Type_ := s1.tunnelType, Domain := s1.tunnelDomain }
      else st0
    let s2 : DMState :=
      { s1 with processes := updMap s1.processes name (some c),
                status := updMap s1.status name (some st),
                alive := (c.hid, name) :: s1.alive,
                monitors := (c.hid, name) :: s1.monitors,
                nextHid := s1.nextHid + 1,
                everStarted := fun q => s1.everStarted q || decide (q = name) }
    (true, startHealthCheckF s2 name)
  else
    (false, s1)

/-- `monitorProcessExit(name)` resuming after `cmd.Wait()` returned for
handle `hid` with error flag `errExit`: the goroutine is gone and the
child is no longer OS-alive; the record is marked not running with
`LastExit = now`; if `Wait` returned an error, `Retries` is incremented
and, when the new count is still `≤ DaemonMaxRetries`, a restart is
scheduled. -/
def monitorExitF (s : DMState) (hid : Nat) (name : String) (errExit : Bool)
    (now : Nat) : DMState :=
  let s0 : DMState :=
    { s with monitors := s.monitors.filter (fun p => decide (p ≠ (hid, name))),
             alive := s.alive.filter (fun p => decide (p.1 ≠ hid)) }
  let s1 : DMState :=
    match s0.status name with
    | some st =>
        { s0 with status :=
            updMap s0.status name (some { st with Running := false, LastExit := some now }) }
    | none => s0
  if errExit then
    match s1.status name with
    | some st =>
      let st1 : ProcessStatus := { st with Retries := st.Retries + 1 }
      let s2 : DMState := { s1 with status := updMap s1.status name (some st1) }
      if (st1.Retries : Int) ≤ s2.cfg.DaemonMaxRetries then
        scheduleRestartF s2 name
      else s2
    | none => s1
  else s1

/-- `checkProcessHealth(name)` with `signalErr` the outcome of the
zero-signal probe: a missing handle just marks the record not running;
a failed probe marks it not running and, when `Retries ≤ DaemonMaxRetries`
(no increment happens here), schedules a restart; a successful probe marks
the record running; in both tracked cases the health check re-arms. -/
def checkProcessHealthF (s : DMState) (name : String) (signalErr : Bool) : DMState :=
  match s.processes name with
  | none =>
    (match s.status name with
     | some st => { s with status := updMap s.status name (some { st with Running := false }) }
     | none => s)
  | some _ =>
    if signalErr then
      let s1 : DMState :=
        match s.status name with
        | some st =>
            { s with status := updMap s.status name (some { st with Running := false }) }
        | none => s
      let s2 : DMState :=
        match s1.status name with
        | some st =>
            if (st.Retries : Int) ≤ s1.cfg.DaemonMaxRetries then scheduleRestartF s1 name
            else s1
        | none => s1
      startHealthCheckF s2 name
    else
      let s1 : DMState :=
        match s.status name with
        | some st =>
            { s with status := updMap s.status name (some { st with Running := true }) }
        | none => s
      startHealthCheckF s1 name

/-- `SetTunnelInfo(tunnelType, domain)`: store the tags and copy them onto
the "tunnel" record when it already exists. -/
def setTunnelInfoF (s : DMState) (ty dom : String) : DMState :=
  let s1 : DMState := { s with tunnelType := ty, tunnelDomain := dom }
  match s1.status "tunnel" with
  | some st =>
      { s1 with status :=
          updMap s1.status "tunnel" (some { st with Type_ := ty, Domain := dom }) }
  | none => s1

/-- `RestartProcess(process)`: error (`进程 %s 不存在`) when no handle is
tracked; otherwise kill the handle, stop and drop both timers for the
name, and reset the record to `Running = false`, `Retries = 0`.  Returns
`true` in the first component iff the call returned an error. -/
def restartProcessF (s : DMState) (name : String) : Bool × DMState :=
  match s.processes name with
  | none => (true, s)
  | some c =>
    let s1 : DMState :=
      { s with alive := s.alive.filter (fun p => decide (p.1 ≠ c.hid)),
               killedK := fun h => s.killedK h || decide (h = c.hid) }
    let s2 : DMState :=
      { s1 with armed := stopTid (stopTid s1.armed (s1.checkTimers name)) (s1.restartTimers name),
                checkTimers := updMap s1.checkTimers name none,
                restartTimers := updMap s1.restartTimers name none }
    let s3 : DMState :=
      match s2.status name with
      | some st =>
          { s2 with status :=
              updMap s2.status name (some { st with Running := false, Retries := 0 }) }
      | none => s2
    (false, s3)

/-- `Cleanup()`: cancel the context, stop and drop every stored timer,
kill and drop every tracked process, and mark every record not running.
`dm.wg.Wait()` is also called, but no goroutine is ever registered with
the wait group, so the pending exit monitors (`monitors`) are untouched. -/
def cleanupF (s : DMState) : DMState :=
  let isMapped : TimerRec → Bool := fun t =>
    (s.checkTimers t.name == some t.tid) || (s.restartTimers t.name == some t.tid)
  let aliveMapped : Nat → Bool := fun h =>
    (s.alive.filter (fun p =>
        match s.processes p.2 with
        | some c => decide (c.hid = p.1)
        | none => false)).any (fun p => decide (p.1 = h))
  { s with cancelled := true,
           armed := s.armed.filter (fun t => !(isMapped t)),
           checkTimers := fun _ => none,
           restartTimers := fun _ => none,
           alive := s.alive.filter (fun p =>
              match s.processes p.2 with
              | some c => decide (¬ c.hid = p.1)
              | none => true),
           killedK := fun h => s.killedK h || aliveMapped h,
           processes := fun _ => none,
           status := fun q => (s.status q).map (fun st => { st with Running := false }) }

/-- A one-shot timer firing: the timer leaves the armed set; a check timer
runs `checkProcessHealth` for its name; a restart timer's callback in this
variant only logs `正在重启进程 %s...` and changes nothing. -/
def fireTimerF (s : DMState) (tid : Nat) (signalErr : Bool) : DMState :=
  match s.armed.find? (fun t => decide (t.tid = tid)) with
  | none => s
  | some t =>
    let s1 : DMState := { s with armed := s.armed.filter (fun u => decide (u.tid ≠ tid)) }
    match t.kind with
    | TimerKind.chk => checkProcessHealthF s1 t.name signalErr
    | TimerKind.rst => s1

/-- Environment events driving the manager. -/
inductive Ev where
  | start (name command : String) (args : List String) (launchOk : Bool) (pid now : Nat)
  | exit (hid : Nat) (name : String) (errExit : Bool) (now : Nat)
  | fire (tid : Nat) (signalErr : Bool)
  | restartReq (name : String)
  | setTunnel (ty dom : String)
  | cleanup
deriving DecidableEq, Repr

/-- One step of the manager under an environment event.  An exit event is
only delivered for a pending monitor goroutine; a fire event only consumes
a currently armed timer (`fireTimerF` ignores unknown identifiers). -/
def run (s : DMState) : Ev → DMState
  | Ev.start name command args ok pid now => (startProcessF s name command args ok pid now).2
  | Ev.exit hid name errExit now =>
      if (hid, name) ∈ s.monitors then monitorExitF s hid name errExit now else s
  | Ev.fire tid sigErr => fireTimerF s tid sigErr
  | Ev.restartReq name => (restartProcessF s name).2
  | Ev.setTunnel ty dom => setTunnelInfoF s ty dom
  | Ev.cleanup => cleanupF s

/-- States reachable from a freshly constructed manager. -/
inductive Reach (cfg : Config) : DMState → Prop where
  | init : Reach cfg (initDM cfg)
  | step {s : DMState} (e : Ev) : Reach cfg s → Reach cfg (run s e)

/-! ### Basic lemmas about the map and timer helpers -/

theorem updMap_apply {α : Type} (m : String → Option α) (k : String) (v : Option α)
    (q : String) : updMap m k v q = if q = k then v else m q := rfl

@[simp] theorem updMap_same {α : Type} (m : String → Option α) (k : String) (v : Option α) :
    updMap m k v k = v := by simp [updMap]

theorem updMap_other {α : Type} (m : String → Option α) (k : String) (v : Option α)
    {q : String} (h : q ≠ k) : updMap m k v q = m q := by simp [updMap, h]

theorem stopTid_sublist (l : List TimerRec) (o : Option Nat) :
    (stopTid l o).Sublist l := by
  cases o with
  | none => exact List.Sublist.refl l
  | some v => exact List.filter_sublist l

theorem mem_stopTid {t : TimerRec} {l : List TimerRec} {o : Option Nat}
    (h : t ∈ stopTid l o) : t ∈ l :=
  (stopTid_sublist l o).subset h

theorem tid_ne_of_mem_stopTid {t : TimerRec} {l : List TimerRec} {v : Nat}
    (h : t ∈ stopTid l (some v)) : t.tid ≠ v := by
  simp only [stopTid, List.mem_filter, decide_eq_true_eq] at h
  exact h.2

/-! ### The inductive invariant -/

/-- Invariant of every reachable manager state: armed timers have fresh,
pairwise-distinct identifiers and are exactly the ones registered in the
timer maps; OS-alive handles have fresh, pairwise-distinct identifiers and
belong to the currently tracked handles of their names; before shutdown
the tracked names are the ever-successfully-started ones; and every
tracked name has a status record. -/
structure Inv (s : DMState) : Prop where
  tidBound : ∀ t ∈ s.armed, t.tid < s.nextTid
  tidDistinct : s.armed.Pairwise (fun a b => a.tid ≠ b.tid)
  armedMapped : ∀ t ∈ s.armed,
      (t.kind = TimerKind.chk → s.checkTimers t.name = some t.tid) ∧
      (t.kind = TimerKind.rst → s.restartTimers t.name = some t.tid)
  hidBound : ∀ p ∈ s.alive, p.1 < s.nextHid
  hidDistinct : s.alive.Pairwise (fun a b => a.1 ≠ b.1)
  aliveMapped : ∀ p ∈ s.alive, ∃ c, s.processes p.2 = some c ∧ c.hid = p.1
  startedDom : s.cancelled = false →
      ∀ n, (s.processes n).isSome ↔ s.everStarted n = true
  statusDom : ∀ n, (s.processes n).isSome → (s.status n).isSome
  procHid : ∀ n c, s.processes n = some c → c.hid < s.nextHid

theorem inv_init (cfg : Config) : Inv (initDM cfg) := by
  refine ⟨?_, ?_, ?_, ?_, ?_, ?_, ?_, ?_, ?_⟩ <;> simp [initDM]

theorem inv_startHealthCheckF {s : DMState} (name : String) (h : Inv s) :
    Inv (startHealthCheckF s name) := by
  unfold startHealthCheckF
  dsimp only
  refine ⟨?_, ?_, ?_, h.hidBound, h.hidDistinct, h.aliveMapped, h.startedDom, h.statusDom,
    h.procHid⟩
  · intro t ht
    dsimp only at ht ⊢
    rcases List.mem_cons.1 ht with rfl | ht
    · simp
    · have := h.tidBound t (mem_stopTid ht)
      omega
  · dsimp only
    refine List.Pairwise.cons ?_ ((h.tidDistinct).sublist (stopTid_sublist _ _))
    intro u hu
    have := h.tidBound u (mem_stopTid hu)
    dsimp only
    omega
  · intro t ht
    dsimp only at ht ⊢
    rcases List.mem_cons.1 ht with rfl | ht
    · refine ⟨fun _ => ?_, fun hk => by simp at hk⟩
      simp
    · have hmem := mem_stopTid ht
      have hmap := h.armedMapped t hmem
      refine ⟨fun hk => ?_, fun hk => hmap.2 hk⟩
      have hold := hmap.1 hk
      by_cases hn : t.name = name
      · exfalso
        rw [hn] at hold
        rw [hold] at ht
        exact tid_ne_of_mem_stopTid ht rfl
      · rw [updMap_other _ _ _ hn]
        exact hold

theorem inv_scheduleRestartF {s : DMState} (name : String) (h : Inv s) :
    Inv (scheduleRestartF s name) := by
  unfold scheduleRestartF
  dsimp only
  split
  · exact ⟨fun t ht => h.tidBound t (mem_stopTid ht),
      (h.tidDistinct).sublist (stopTid_sublist _ _),
      fun t ht => h.armedMapped t (mem_stopTid ht),
      h.hidBound, h.hidDistinct, h.aliveMapped, h.startedDom, h.statusDom, h.procHid⟩
  · refine ⟨?_, ?_, ?_, h.hidBound, h.hidDistinct, h.aliveMapped, h.startedDom, h.statusDom,
      h.procHid⟩
    · intro t ht
      dsimp only at ht ⊢
      rcases List.mem_cons.1 ht with rfl | ht
      · simp
      · have := h.tidBound t (mem_stopTid ht)
        omega
    · dsimp only
      refine List.Pairwise.cons ?_ ((h.tidDistinct).sublist (stopTid_sublist _ _))
      intro u hu
      have := h.tidBound u (mem_stopTid hu)
      dsimp only
      omega
    · intro t ht
      dsimp only at ht ⊢
      rcases List.mem_cons.1 ht with rfl | ht
      · refine ⟨fun hk => by simp at hk, fun _ => ?_⟩
        simp
      · have hmem := mem_stopTid ht
        have hmap := h.armedMapped t hmem
        refine ⟨fun hk => hmap.1 hk, fun hk => ?_⟩
        have hold := hmap.2 hk
        by_cases hn : t.name = name
        · exfalso
          rw [hn] at hold
          rw [hold] at ht
          exact tid_ne_of_mem_stopTid ht rfl
        · rw [updMap_other _ _ _ hn]
          exact hold

/-- Transport of the invariant along a state change that only shrinks the
armed-timer and alive-handle lists and keeps the timer maps, counters,
process map, started set and cancellation flag. -/
theorem inv_transport {s s' : DMState} (h : Inv s)
    (harm : s'.armed.Sublist s.armed) (hnt : s'.nextTid = s.nextTid)
    (hchk : s'.checkTimers = s.checkTimers) (hrst : s'.restartTimers = s.restartTimers)
    (halive : s'.alive.Sublist s.alive) (hnh : s'.nextHid = s.nextHid)
    (hproc : s'.processes = s.processes)
    (hstat : ∀ n, (s'.processes n).isSome → (s'.status n).isSome)
    (hcan : s'.cancelled = s.cancelled) (hever : s'.everStarted = s.everStarted) :
    Inv s' := by
  refine ⟨?_, h.tidDistinct.sublist harm, ?_, ?_, h.hidDistinct.sublist halive,
    ?_, ?_, hstat, ?_⟩
  · intro t ht
    rw [hnt]
    exact h.tidBound t (harm.subset ht)
  · intro t ht
    rw [hchk, hrst]
    exact h.armedMapped t (harm.subset ht)
  · intro p hp
    rw [hnh]
    exact h.hidBound p (halive.subset hp)
  · intro p hp
    rw [hproc]
    exact h.aliveMapped p (halive.subset hp)
  · rw [hcan, hproc, hever]
    exact h.startedDom
  · intro n c hc
    rw [hproc] at hc
    rw [hnh]
    exact h.procHid n c hc

/-- A point update of the status map to a present value preserves the
status-domain condition. -/
theorem statusDom_updMap {proc : String → Option GoCmd}
    {stat : String → Option ProcessStatus}
    (h : ∀ n, (proc n).isSome → (stat n).isSome) (name : String) (st' : ProcessStatus) :
    ∀ n, (proc n).isSome → ((updMap stat name (some st')) n).isSome := by
  intro n hn
  by_cases hq : n = name
  · subst hq
    simp [updMap_same]
  · rw [updMap_other _ _ _ hq]
    exact h n hn

theorem inv_killTrackedF {s : DMState} (name : String) (h : Inv s) :
    Inv (killTrackedF s name) := by
  unfold killTrackedF
  split
  · exact inv_transport h (List.Sublist.refl _) rfl rfl rfl (List.filter_sublist _) rfl rfl
      h.statusDom rfl rfl
  · exact h

/-- After the kill-old block of `StartProcess`, no handle for `name` is
OS-alive any more. -/
theorem killTrackedF_alive_name {s : DMState} (name : String) (h : Inv s) :
    ∀ p ∈ (killTrackedF s name).alive, p.2 ≠ name := by
  unfold killTrackedF
  split
  next old heq =>
    intro p hp hpn
    simp only [List.mem_filter, decide_eq_true_eq] at hp
    obtain ⟨c, hc, hchid⟩ := h.aliveMapped p hp.1
    rw [hpn, heq] at hc
    cases hc
    exact hp.2 hchid.symm
  next heq =>
    intro p hp hpn
    obtain ⟨c, hc, _⟩ := h.aliveMapped p hp
    rw [hpn, heq] at hc
    cases hc

theorem inv_startProcessF {s : DMState} (name command : String) (args : List String)
    (launchOk : Bool) (pid now : Nat) (h : Inv s) :
    Inv (startProcessF s name command args launchOk pid now).2 := by
  have hk : Inv (killTrackedF s name) := inv_killTrackedF name h
  have hnm := killTrackedF_alive_name name h
  unfold startProcessF
  dsimp only
  cases launchOk with
  | false => exact hk
  | true =>
    rw [if_pos rfl]
    dsimp only
    apply inv_startHealthCheckF
    refine ⟨hk.tidBound, hk.tidDistinct, hk.armedMapped, ?_, ?_, ?_, ?_, ?_, ?_⟩
    · intro p hp
      dsimp only at hp ⊢
      rcases List.mem_cons.1 hp with rfl | hp
      · dsimp only
        omega
      · have := hk.hidBound p hp
        omega
    · dsimp only
      refine List.Pairwise.cons ?_ hk.hidDistinct
      intro u hu
      have := hk.hidBound u hu
      dsimp only
      omega
    · intro p hp
      dsimp only at hp ⊢
      rcases List.mem_cons.1 hp with rfl | hp
      · exact ⟨_, updMap_same _ _ _, rfl⟩
      · have hne := hnm p hp
        rw [updMap_other _ _ _ hne]
        exact hk.aliveMapped p hp
    · intro hcan n
      dsimp only at hcan ⊢
      by_cases hq : n = name
      · subst hq
        simp [updMap_same]
      · rw [updMap_other _ _ _ hq]
        have hd : decide (n = name) = false := by
          simp [hq]
        rw [hd, Bool.or_false]
        exact hk.startedDom hcan n
    · intro n hn
      dsimp only at hn ⊢
      by_cases hq : n = name
      · subst hq
        simp [updMap_same]
      · rw [updMap_other _ _ _ hq] at hn ⊢
        exact hk.statusDom n hn
    · intro n c hc
      dsimp only at hc ⊢
      by_cases hq : n = name
      · subst hq
        rw [updMap_same] at hc
        cases hc
        dsimp only
        omega
      · rw [updMap_other _ _ _ hq] at hc
        have := (inv_killTrackedF name h).procHid n c hc
        omega

theorem inv_monitorExitF {s : DMState} (hid : Nat) (name : String) (errExit : Bool)
    (now : Nat) (h : Inv s) : Inv (monitorExitF s hid name errExit now) := by
  unfold monitorExitF
  dsimp only
  rcases hst : s.status name with _ | st
  · cases errExit
    · rw [if_neg Bool.false_ne_true]
      exact inv_transport h (List.Sublist.refl _) rfl rfl rfl (List.filter_sublist _) rfl rfl
        h.statusDom rfl rfl
    · rw [if_pos rfl]
      try dsimp only
      try rw [hst]
      try dsimp only
      exact inv_transport h (List.Sublist.refl _) rfl rfl rfl (List.filter_sublist _) rfl rfl
        h.statusDom rfl rfl
  · cases errExit
    · rw [if_neg Bool.false_ne_true]
      exact inv_transport h (List.Sublist.refl _) rfl rfl rfl (List.filter_sublist _) rfl rfl
        (statusDom_updMap h.statusDom _ _) rfl rfl
    · rw [if_pos rfl]
      try dsimp only
      rw [updMap_same]
      try dsimp only
      split
      · apply inv_scheduleRestartF
        exact inv_transport h (List.Sublist.refl _) rfl rfl rfl (List.filter_sublist _) rfl rfl
          (statusDom_updMap (statusDom_updMap h.statusDom _ _) _ _) rfl rfl
      · exact inv_transport h (List.Sublist.refl _) rfl rfl rfl (List.filter_sublist _) rfl rfl
          (statusDom_updMap (statusDom_updMap h.statusDom _ _) _ _) rfl rfl

theorem inv_checkProcessHealthF {s : DMState} (name : String) (signalErr : Bool)
    (h : Inv s) : Inv (checkProcessHealthF s name signalErr) := by
  unfold checkProcessHealthF
  dsimp only
  rcases hp : s.processes name with _ | c
  · rcases hst : s.status name with _ | st
    · exact h
    · exact inv_transport h (List.Sublist.refl _) rfl rfl rfl (List.Sublist.refl _) rfl rfl
        (statusDom_updMap h.statusDom _ _) rfl rfl
  · cases signalErr
    · rw [if_neg Bool.false_ne_true]
      try dsimp only
      apply inv_startHealthCheckF
      rcases hst : s.status name with _ | st
      · exact h
      · exact inv_transport h (List.Sublist.refl _) rfl rfl rfl (List.Sublist.refl _) rfl rfl
          (statusDom_updMap h.statusDom _ _) rfl rfl
    · rw [if_pos rfl]
      try dsimp only
      apply inv_startHealthCheckF
      rcases hst : s.status name with _ | st
      · try dsimp only
        try rw [hst]
        try dsimp only
        exact h
      · try dsimp only
        rw [updMap_same]
        try dsimp only
        split
        · apply inv_scheduleRestartF
          exact inv_transport h (List.Sublist.refl _) rfl rfl rfl (List.Sublist.refl _) rfl rfl
            (statusDom_updMap h.statusDom _ _) rfl rfl
        · exact inv_transport h (List.Sublist.refl _) rfl rfl rfl (List.Sublist.refl _) rfl rfl
            (statusDom_updMap h.statusDom _ _) rfl rfl

theorem inv_setTunnelInfoF {s : DMState} (ty dom : String) (h : Inv s) :
    Inv (setTunnelInfoF s ty dom) := by
  unfold setTunnelInfoF
  dsimp only
  rcases hst : s.status "tunnel" with _ | st
  · exact inv_transport h (List.Sublist.refl _) rfl rfl rfl (List.Sublist.refl _) rfl rfl
      h.statusDom rfl rfl
  · exact inv_transport h (List.Sublist.refl _) rfl rfl rfl (List.Sublist.refl _) rfl rfl
      (statusDom_updMap h.statusDom _ _) rfl rfl

theorem inv_restartProcessF {s : DMState} (name : String) (h : Inv s) :
    Inv (restartProcessF s name).2 := by
  unfold restartProcessF
  dsimp only
  rcases hp : s.processes name with _ | c
  · exact h
  · have hsub2 : ∀ t ∈ stopTid (stopTid s.armed (s.checkTimers name)) (s.restartTimers name),
        t ∈ s.armed := fun t ht => mem_stopTid (mem_stopTid ht)
    have hmapped : ∀ t ∈ stopTid (stopTid s.armed (s.checkTimers name)) (s.restartTimers name),
        (t.kind = TimerKind.chk → updMap s.checkTimers name none t.name = some t.tid) ∧
        (t.kind = TimerKind.rst → updMap s.restartTimers name none t.name = some t.tid) := by
      intro t ht
      have hmap := h.armedMapped t (hsub2 t ht)
      constructor
      · intro hk
        have hold := hmap.1 hk
        by_cases hn : t.name = name
        · exfalso
          rw [hn] at hold
          have hin : t ∈ stopTid s.armed (s.checkTimers name) := mem_stopTid ht
          rw [hold] at hin
          exact tid_ne_of_mem_stopTid hin rfl
        · rw [updMap_other _ _ _ hn]
          exact hold
      · intro hk
        have hold := hmap.2 hk
        by_cases hn : t.name = name
        · exfalso
          rw [hn] at hold
          rw [hold] at ht
          exact tid_ne_of_mem_stopTid ht rfl
        · rw [updMap_other _ _ _ hn]
          exact hold
    have hpair : (stopTid (stopTid s.armed (s.checkTimers name)) (s.restartTimers name)).Pairwise
        (fun a b => a.tid ≠ b.tid) :=
      h.tidDistinct.sublist ((stopTid_sublist _ _).trans (stopTid_sublist _ _))
    rcases hst : s.status name with _ | st
    · try dsimp only
      try rw [hst]
      try dsimp only
      refine ⟨?_, hpair, hmapped, ?_, h.hidDistinct.sublist (List.filter_sublist _), ?_, ?_, ?_,
        h.procHid⟩
      · intro t ht
        exact h.tidBound t (hsub2 t ht)
      · intro p hpm
        exact h.hidBound p ((List.filter_sublist _).subset hpm)
      · intro p hpm
        exact h.aliveMapped p ((List.filter_sublist _).subset hpm)
      · exact h.startedDom
      · exact h.statusDom
    · try dsimp only
      refine ⟨?_, hpair, hmapped, ?_, h.hidDistinct.sublist (List.filter_sublist _), ?_, ?_, ?_,
        h.procHid⟩
      · intro t ht
        exact h.tidBound t (hsub2 t ht)
      · intro p hpm
        exact h.hidBound p ((List.filter_sublist _).subset hpm)
      · intro p hpm
        exact h.aliveMapped p ((List.filter_sublist _).subset hpm)
      · exact h.startedDom
      · exact statusDom_updMap h.statusDom _ _

theorem inv_cleanupF {s : DMState} (h : Inv s) : Inv (cleanupF s) := by
  unfold cleanupF
  dsimp only
  refine ⟨?_, h.tidDistinct.sublist (List.filter_sublist _), ?_, ?_,
    h.hidDistinct.sublist (List.filter_sublist _), ?_, ?_, ?_, ?_⟩
  · intro t ht
    exfalso
    rw [List.mem_filter] at ht
    obtain ⟨htm, hcond⟩ := ht
    have hmap := h.armedMapped t htm
    cases hkind : t.kind
    · rw [hmap.1 hkind] at hcond
      simp at hcond
    · rw [hmap.2 hkind] at hcond
      simp at hcond
  · intro t ht
    exfalso
    rw [List.mem_filter] at ht
    obtain ⟨htm, hcond⟩ := ht
    have hmap := h.armedMapped t htm
    cases hkind : t.kind
    · rw [hmap.1 hkind] at hcond
      simp at hcond
    · rw [hmap.2 hkind] at hcond
      simp at hcond
  · intro p hpm
    exfalso
    rw [List.mem_filter] at hpm
    obtain ⟨hp, hcond⟩ := hpm
    obtain ⟨c, hc, hchid⟩ := h.aliveMapped p hp
    rw [hc] at hcond
    simp [hchid] at hcond
  · intro p hpm
    exfalso
    rw [List.mem_filter] at hpm
    obtain ⟨hp, hcond⟩ := hpm
    obtain ⟨c, hc, hchid⟩ := h.aliveMapped p hp
    rw [hc] at hcond
    simp [hchid] at hcond
  · intro hcan
    simp at hcan
  · intro n hn
    simp at hn
  · intro n c hc
    simp at hc

theorem inv_fireTimerF {s : DMState} (tid : Nat) (sigErr : Bool) (h : Inv s) :
    Inv (fireTimerF s tid sigErr) := by
  have h1 : Inv { s with armed := s.armed.filter (fun u => decide (u.tid ≠ tid)) } :=
    inv_transport h (List.filter_sublist _) rfl rfl rfl (List.Sublist.refl _) rfl rfl
      h.statusDom rfl rfl
  unfold fireTimerF
  dsimp only
  split
  · exact h
  · split
    · exact inv_checkProcessHealthF _ _ h1
    · exact h1

theorem inv_run {s : DMState} (e : Ev) (h : Inv s) : Inv (run s e) := by
  cases e with
  | start name command args ok pid now => exact inv_startProcessF name command args ok pid now h
  | exit hid name errExit now =>
    dsimp only [run]
    split
    · exact inv_monitorExitF hid name errExit now h
    · exact h
  | fire tid sigErr => exact inv_fireTimerF tid sigErr h
  | restartReq name => exact inv_restartProcessF name h
  | setTunnel ty dom => exact inv_setTunnelInfoF ty dom h
  | cleanup => exact inv_cleanupF h

/-- Every reachable state satisfies the invariant. -/
theorem reach_inv {cfg : Config} {s : DMState} (h : Reach cfg s) : Inv s := by
  induction h with
  | init => exact inv_init cfg
  | step e _ ih => exact inv_run e ih

/-! ### Per-name counting consequences of the invariant -/

/-- A pairwise key-distinct list whose keys are all the same value has at
most one element. -/
theorem length_le_one_of_pairwise_key {α β : Type} (f : α → β) (v : β) :
    ∀ (l : List α), l.Pairwise (fun a b => f a ≠ f b) → (∀ a ∈ l, f a = v) →
      l.length ≤ 1 := by
  intro l hp hv
  match l with
  | [] => simp
  | [a] => simp
  | a :: b :: l =>
    exfalso
    have hab : f a ≠ f b := (List.pairwise_cons.1 hp).1 b (by simp)
    rw [hv a (by simp), hv b (by simp)] at hab
    exact hab rfl

/-- In an invariant state there is at most one armed timer of each kind
per name. -/
theorem inv_armed_count {s : DMState} (h : Inv s) (name : String) (k : TimerKind) :
    (s.armed.filter (fun t => decide (t.name = name ∧ t.kind = k))).length ≤ 1 := by
  have hpw : (s.armed.filter (fun t => decide (t.name = name ∧ t.kind = k))).Pairwise
      (fun a b => a.tid ≠ b.tid) := h.tidDistinct.sublist (List.filter_sublist _)
  have hmem : ∀ t ∈ s.armed.filter (fun t => decide (t.name = name ∧ t.kind = k)),
      t ∈ s.armed ∧ t.name = name ∧ t.kind = k := by
    intro t ht
    rw [List.mem_filter, decide_eq_true_eq] at ht
    exact ⟨ht.1, ht.2.1, ht.2.2⟩
  cases k
  case chk =>
    rcases hm : s.checkTimers name with _ | v
    · match hl : s.armed.filter (fun t => decide (t.name = name ∧ t.kind = TimerKind.chk)) with
      | [] =>
        rw [hl]
        simp
      | t :: l =>
        exfalso
        have ht := hmem t (by rw [hl]; simp)
        have := (h.armedMapped t ht.1).1 ht.2.2
        rw [ht.2.1, hm] at this
        cases this
    · refine length_le_one_of_pairwise_key (fun t => t.tid) v _ hpw ?_
      intro t ht
      have htm := hmem t ht
      have := (h.armedMapped t htm.1).1 htm.2.2
      rw [htm.2.1, hm] at this
      exact (Option.some.inj this).symm
  case rst =>
    rcases hm : s.restartTimers name with _ | v
    · match hl : s.armed.filter (fun t => decide (t.name = name ∧ t.kind = TimerKind.rst)) with
      | [] =>
        rw [hl]
        simp
      | t :: l =>
        exfalso
        have ht := hmem t (by rw [hl]; simp)
        have := (h.armedMapped t ht.1).2 ht.2.2
        rw [ht.2.1, hm] at this
        cases this
    · refine length_le_one_of_pairwise_key (fun t => t.tid) v _ hpw ?_
      intro t ht
      have htm := hmem t ht
      have := (h.armedMapped t htm.1).2 htm.2.2
      rw [htm.2.1, hm] at this
      exact (Option.some.inj this).symm

/-- In an invariant state at most one handle per name is OS-alive. -/
theorem inv_alive_count {s : DMState} (h : Inv s) (name : String) :
    (s.alive.filter (fun p => decide (p.2 = name))).length ≤ 1 := by
  have hpw : (s.alive.filter (fun p => decide (p.2 = name))).Pairwise
      (fun a b => a.1 ≠ b.1) := h.hidDistinct.sublist (List.filter_sublist _)
  have hmem : ∀ p ∈ s.alive.filter (fun p => decide (p.2 = name)),
      p ∈ s.alive ∧ p.2 = name := by
    intro p hp
    rw [List.mem_filter, decide_eq_true_eq] at hp
    exact hp
  rcases hm : s.processes name with _ | c
  · match hl : s.alive.filter (fun p => decide (p.2 = name)) with
    | [] =>
      rw [hl]
      simp
    | p :: l =>
      exfalso
      have hp := hmem p (by rw [hl]; simp)
      obtain ⟨c, hc, _⟩ := h.aliveMapped p hp.1
      rw [hp.2, hm] at hc
      cases hc
  · refine length_le_one_of_pairwise_key (fun p => p.1) c.hid _ hpw ?_
    intro p hp
    have hpm := hmem p hp
    obtain ⟨c2, hc2, hh2⟩ := h.aliveMapped p hpm.1
    rw [hpm.2, hm] at hc2
    have hcc := Option.some.inj hc2
    subst hcc
    exact hh2.symm

/-! ### Field-equation helpers for the transition functions -/

@[simp] theorem startHealthCheckF_status (s : DMState) (name : String) :
    (startHealthCheckF s name).status = s.status := rfl

@[simp] theorem startHealthCheckF_processes (s : DMState) (name : String) :
    (startHealthCheckF s name).processes = s.processes := rfl

@[simp] theorem startHealthCheckF_alive (s : DMState) (name : String) :
    (startHealthCheckF s name).alive = s.alive := rfl

@[simp] theorem startHealthCheckF_monitors (s : DMState) (name : String) :
    (startHealthCheckF s name).monitors = s.monitors := rfl

@[simp] theorem startHealthCheckF_killedK (s : DMState) (name : String) :
    (startHealthCheckF s name).killedK = s.killedK := rfl

@[simp] theorem startHealthCheckF_nextHid (s : DMState) (name : String) :
    (startHealthCheckF s name).nextHid = s.nextHid := rfl

@[simp] theorem scheduleRestartF_status (s : DMState) (name : String) :
    (scheduleRestartF s name).status = s.status := by
  unfold scheduleRestartF
  dsimp only
  split <;> rfl

@[simp] theorem scheduleRestartF_processes (s : DMState) (name : String) :
    (scheduleRestartF s name).processes = s.processes := by
  unfold scheduleRestartF
  dsimp only
  split <;> rfl

@[simp] theorem scheduleRestartF_alive (s : DMState) (name : String) :
    (scheduleRestartF s name).alive = s.alive := by
  unfold scheduleRestartF
  dsimp only
  split <;> rfl

@[simp] theorem scheduleRestartF_monitors (s : DMState) (name : String) :
    (scheduleRestartF s name).monitors = s.monitors := by
  unfold scheduleRestartF
  dsimp only
  split <;> rfl

@[simp] theorem scheduleRestartF_nextHid (s : DMState) (name : String) :
    (scheduleRestartF s name).nextHid = s.nextHid := by
  unfold scheduleRestartF
  dsimp only
  split <;> rfl

@[simp] theorem killTrackedF_status (s : DMState) (name : String) :
    (killTrackedF s name).status = s.status := by
  unfold killTrackedF
  split <;> rfl

@[simp] theorem killTrackedF_processes (s : DMState) (name : String) :
    (killTrackedF s name).processes = s.processes := by
  unfold killTrackedF
  split <;> rfl

@[simp] theorem killTrackedF_tunnelType (s : DMState) (name : String) :
    (killTrackedF s name).tunnelType = s.tunnelType := by
  unfold killTrackedF
  split <;> rfl

@[simp] theorem killTrackedF_tunnelDomain (s : DMState) (name : String) :
    (killTrackedF s name).tunnelDomain = s.tunnelDomain := by
  unfold killTrackedF
  split <;> rfl

@[simp] theorem killTrackedF_nextTid (s : DMState) (name : String) :
    (killTrackedF s name).nextTid = s.nextTid := by
  unfold killTrackedF
  split <;> rfl

@[simp] theorem killTrackedF_nextHid (s : DMState) (name : String) :
    (killTrackedF s name).nextHid = s.nextHid := by
  unfold killTrackedF
  split <;> rfl

@[simp] theorem killTrackedF_monitors (s : DMState) (name : String) :
    (killTrackedF s name).monitors = s.monitors := by
  unfold killTrackedF
  split <;> rfl

/-- Unfolding `scheduleRestart` when a status record is present. -/
theorem scheduleRestartF_some {s : DMState} {name : String} {st : ProcessStatus}
    (hst : s.status name = some st) :
    scheduleRestartF s name =
      { s with
        armed := { tid := s.nextTid, name := name, kind := TimerKind.rst,
                   delayNs := goRestartDelayNs s.cfg.DaemonRestartDelay st.Retries } ::
                 stopTid s.armed (s.restartTimers name),
        restartTimers := updMap s.restartTimers name (some s.nextTid),
        nextTid := s.nextTid + 1 } := by
  unfold scheduleRestartF
  dsimp only
  rw [hst]

/-- Unfolding `SetTunnelInfo` when no "tunnel" record exists yet. -/
theorem setTunnelInfoF_none {s : DMState} {ty dom : String}
    (hst : s.status "tunnel" = none) :
    setTunnelInfoF s ty dom = { s with tunnelType := ty, tunnelDomain := dom } := by
  unfold setTunnelInfoF
  dsimp only
  rw [hst]

/-- The status record installed by a successful `StartProcess`. -/
theorem startProcessF_status_ok (s : DMState) (name command : String)
    (args : List String) (pid now : Nat) :
    (startProcessF s name command args true pid now).2.status name =
      some (if name = "tunnel"
        then { Running := true, Retries := 0, LastStart := now, LastExit := none,
               PID := pid, Name := name, Type_ := s.tunnelType, Domain := s.tunnelDomain }
        else { Running := true, Retries := 0, LastStart := now, LastExit := none,
               PID := pid, Name := name, Type_ := "", Domain := "" }) := by
  unfold startProcessF
  dsimp only
  rw [if_pos rfl]
  dsimp only
  rw [startHealthCheckF_status]
  dsimp only
  rw [updMap_same]
  split
  · rw [killTrackedF_tunnelType, killTrackedF_tunnelDomain]
  · rfl

/-! ### Arithmetic facts about the Go duration computation -/

theorem int64wrap_eq_self {x : Int} (h0 : -(2 ^ 63) ≤ x) (h1 : x < 2 ^ 63) :
    int64wrap x = x := by
  unfold int64wrap
  have e3 : (2:Int) ^ 63 = 9223372036854775808 := by norm_num
  have e4 : (2:Int) ^ 64 = 18446744073709551616 := by norm_num
  rw [e3, e4] at *
  omega

/-- Under no-overflow conditions, the delay computed by `scheduleRestart`
is exactly the capped exponential backoff, in nanoseconds. -/
theorem goRestartDelayNs_eq (baseMs : Int) (retries : Nat) (h1 : 1 ≤ retries)
    (h2 : retries ≤ 63) (h0 : 0 ≤ baseMs)
    (hb : baseMs * 1000000 * 2 ^ (retries - 1) < 2 ^ 63) :
    goRestartDelayNs baseMs retries =
      min (baseMs * 1000000 * 2 ^ (retries - 1)) (60 * 1000000000) := by
  have hneg : -((2:Int) ^ 63) ≤ 0 := by norm_num
  have hpow1 : (1:Int) ≤ 2 ^ (retries - 1) := by
    calc (1:Int) = 2 ^ 0 := by norm_num
      _ ≤ 2 ^ (retries - 1) := pow_le_pow_right₀ one_le_two (Nat.zero_le _)
  have hpowpos : (0:Int) ≤ 2 ^ (retries - 1) := by positivity
  have hple : (2:Int) ^ (retries - 1) < 2 ^ 63 := by
    calc (2:Int) ^ (retries - 1) ≤ 2 ^ 62 := by
          apply pow_le_pow_right₀ one_le_two
          omega
      _ < 2 ^ 63 := by norm_num
  have hbase0 : (0:Int) ≤ baseMs * 1000000 := by positivity
  have hprod0 : (0:Int) ≤ baseMs * 1000000 * 2 ^ (retries - 1) := by positivity
  have hbase6 : baseMs * 1000000 < 2 ^ 63 :=
    lt_of_le_of_lt (le_mul_of_one_le_right hbase0 hpow1) hb
  unfold goRestartDelayNs goDurationMs goShl1 shiftOf
  dsimp only
  rw [if_neg (by omega : ¬ retries = 0), if_neg (by omega : ¬ 64 ≤ retries - 1)]
  rw [int64wrap_eq_self (le_trans hneg hpowpos) hple,
      int64wrap_eq_self (le_trans hneg hbase0) hbase6,
      int64wrap_eq_self (le_trans hneg hprod0) hb]
  rcases le_or_lt (baseMs * 1000000 * 2 ^ (retries - 1)) (60 * 1000000000) with hle | hgt
  · rw [if_neg (not_lt.mpr hle), min_eq_left hle]
  · rw [if_pos hgt, min_eq_right (le_of_lt hgt)]

/-! ### How each transition affects the retry counter -/

/-- The retry counter of `name`, 0 when no record exists. -/
def retriesOf (s : DMState) (name : String) : Nat :=
  ((s.status name).map (fun st => st.Retries)).getD 0

/-- Events that may legitimately reset the retry counter of `name`: an
explicit restart request for `name` or a start of `name`. -/
def isResetEv (e : Ev) (name : String) : Bool :=
  match e with
  | Ev.restartReq n => n == name
  | Ev.start n _ _ _ _ _ => n == name
  | _ => false

theorem checkProcessHealthF_retries (s : DMState) (n : String) (b : Bool) (q : String) :
    ((checkProcessHealthF s n b).status q).map (fun st => st.Retries) =
      (s.status q).map (fun st => st.Retries) := by
  unfold checkProcessHealthF
  dsimp only
  split
  · split
    next st hst =>
      by_cases hq : q = n
      · subst hq
        try dsimp only
        rw [updMap_same, hst]
        try rfl
      · try dsimp only
        rw [updMap_other _ _ _ hq]
    next hst => rfl
  · split
    · rcases hst : s.status n with _ | st
      · try dsimp only
        try rw [hst]
        try dsimp only
        rw [startHealthCheckF_status]
        try rfl
      · try dsimp only
        rw [startHealthCheckF_status]
        try dsimp only
        rw [updMap_same]
        try dsimp only
        split
        · rw [scheduleRestartF_status]
          try dsimp only
          by_cases hq : q = n
          · subst hq
            rw [updMap_same, hst]
            try rfl
          · rw [updMap_other _ _ _ hq]
        · try dsimp only
          by_cases hq : q = n
          · subst hq
            rw [updMap_same, hst]
            try rfl
          · rw [updMap_other _ _ _ hq]
    · rcases hst : s.status n with _ | st
      · try dsimp only
        try rw [hst]
        try dsimp only
        rw [startHealthCheckF_status]
        try rfl
      · try dsimp only
        rw [startHealthCheckF_status]
        try dsimp only
        by_cases hq : q = n
        · subst hq
          rw [updMap_same, hst]
          try rfl
        · rw [updMap_other _ _ _ hq]

theorem fireTimerF_retries (s : DMState) (tid : Nat) (b : Bool) (q : String) :
    ((fireTimerF s tid b).status q).map (fun st => st.Retries) =
      (s.status q).map (fun st => st.Retries) := by
  unfold fireTimerF
  dsimp only
  split
  · rfl
  · split
    · rw [checkProcessHealthF_retries]
    · rfl

theorem monitorExitF_retries_mono (s : DMState) (hid : Nat) (name : String)
    (e : Bool) (now : Nat) (q : String) :
    ((s.status q).map (fun st => st.Retries)).getD 0 ≤
      (((monitorExitF s hid name e now).status q).map (fun st => st.Retries)).getD 0 := by
  unfold monitorExitF
  dsimp only
  rcases hst : s.status name with _ | st
  · cases e
    · rw [if_neg Bool.false_ne_true]
      try dsimp only
      try exact Nat.le_refl _
    · rw [if_pos rfl]
      try dsimp only
      try rw [hst]
      try dsimp only
      try exact Nat.le_refl _
  · cases e
    · rw [if_neg Bool.false_ne_true]
      try dsimp only
      by_cases hq : q = name
      · subst hq
        rw [updMap_same, hst]
        exact Nat.le_refl _
      · rw [updMap_other _ _ _ hq]
    · rw [if_pos rfl]
      try dsimp only
      rw [updMap_same]
      try dsimp only
      split
      · rw [scheduleRestartF_status]
        try dsimp only
        by_cases hq : q = name
        · subst hq
          rw [updMap_same, hst]
          exact Nat.le_succ _
        · rw [updMap_other _ _ _ hq, updMap_other _ _ _ hq]
          try exact Nat.le_refl _
      · try dsimp only
        by_cases hq : q = name
        · subst hq
          rw [updMap_same, hst]
          exact Nat.le_succ _
        · rw [updMap_other _ _ _ hq, updMap_other _ _ _ hq]
          try exact Nat.le_refl _

theorem monitorExitF_retries_incr (s : DMState) (hid : Nat) (name : String)
    (now : Nat) (st : ProcessStatus) (hst : s.status name = some st) :
    ((monitorExitF s hid name true now).status name).map (fun st => st.Retries) =
      some (st.Retries + 1) := by
  unfold monitorExitF
  dsimp only
  rw [hst]
  try dsimp only
  rw [if_pos rfl]
  try dsimp only
  rw [updMap_same]
  try dsimp only
  split
  · rw [scheduleRestartF_status]
    try dsimp only
    rw [updMap_same]
    try rfl
  · try dsimp only
    rw [updMap_same]
    try rfl

theorem startProcessF_retries_other (s : DMState) (n command : String)
    (args : List String) (ok : Bool) (pid now : Nat) (q : String) (hq : q ≠ n) :
    ((startProcessF s n command args ok pid now).2.status q).map (fun st => st.Retries) =
      (s.status q).map (fun st => st.Retries) := by
  unfold startProcessF
  dsimp only
  cases ok
  · rw [if_neg Bool.false_ne_true]
    try dsimp only
    rw [killTrackedF_status]
  · rw [if_pos rfl]
    try dsimp only
    rw [startHealthCheckF_status]
    try dsimp only
    rw [updMap_other _ _ _ hq, killTrackedF_status]

theorem restartProcessF_retries_other (s : DMState) (n : String) (q : String) (hq : q ≠ n) :
    (((restartProcessF s n).2.status q)).map (fun st => st.Retries) =
      (s.status q).map (fun st => st.Retries) := by
  unfold restartProcessF
  dsimp only
  split
  · rfl
  · try dsimp only
    rcases hst : s.status n with _ | st
    · try dsimp only
      try rw [hst]
      try dsimp only
      try rfl
    · try dsimp only
      rw [updMap_other _ _ _ hq]

theorem setTunnelInfoF_retries (s : DMState) (ty dom : String) (q : String) :
    ((setTunnelInfoF s ty dom).status q).map (fun st => st.Retries) =
      (s.status q).map (fun st => st.Retries) := by
  unfold setTunnelInfoF
  dsimp only
  split
  next st hst =>
    try dsimp only
    by_cases hq : q = "tunnel"
    · subst hq
      rw [updMap_same, hst]
      try rfl
    · rw [updMap_other _ _ _ hq]
  next hst => rfl

theorem cleanupF_retries (s : DMState) (q : String) :
    ((cleanupF s).status q).map (fun st => st.Retries) =
      (s.status q).map (fun st => st.Retries) := by
  unfold cleanupF
  dsimp only
  rcases s.status q with _ | st <;> rfl

/-! ### Unfolding equations used by the claim proofs -/

theorem killTrackedF_some {s : DMState} {name : String} {old : GoCmd}
    (hold : s.processes name = some old) :
    killTrackedF s name =
      { s with alive := s.alive.filter (fun p => decide (p.1 ≠ old.hid)),
               killedK := fun h => s.killedK h || decide (h = old.hid) } := by
  unfold killTrackedF
  rw [hold]

theorem startProcessF_ok_alive (s : DMState) (name command : String)
    (args : List String) (pid now : Nat) :
    (startProcessF s name command args true pid now).2.alive =
      ((killTrackedF s name).nextHid, name) :: (killTrackedF s name).alive := by
  unfold startProcessF
  dsimp only
  rw [if_pos rfl]
  rfl

theorem startProcessF_ok_killedK (s : DMState) (name command : String)
    (args : List String) (pid now : Nat) :
    (startProcessF s name command args true pid now).2.killedK =
      (killTrackedF s name).killedK := by
  unfold startProcessF
  dsimp only
  rw [if_pos rfl]
  rfl

theorem startProcessF_ok_monitors (s : DMState) (name command : String)
    (args : List String) (pid now : Nat) :
    (startProcessF s name command args true pid now).2.monitors =
      ((killTrackedF s name).nextHid, name) :: (killTrackedF s name).monitors := by
  unfold startProcessF
  dsimp only
  rw [if_pos rfl]
  rfl

/-! ### Shared concrete example states (used by witnesses and
counterexamples) -/

/-- A start of "xray" succeeding with pid 100 at time 5. -/
def exEv1 : Ev := Ev.start "xray" "/app/xray" [] true 100 5

/-- State after the sample start: handle 0 tracked and alive, monitor
pending, health-check timer 0 armed. -/
def exS1 : DMState := run (initDM defaultConfig) exEv1

theorem exS1_reach : Reach defaultConfig exS1 :=
  Reach.step exEv1 Reach.init

/-- State after the "xray" child then exits abnormally at time 9: record
not running, retries 1, restart timer 1 armed. -/
def exS2 : DMState := run exS1 (Ev.exit 0 "xray" true 9)

theorem exS2_reach : Reach defaultConfig exS2 :=
  Reach.step _ exS1_reach

/-! ### Claims C4, C5, C6 -/

/-- C6: for every name and at every reachable instant, at most one
health-check timer and at most one restart timer are armed for that name;
this holds because arming a timer of either kind first stops the timer
currently stored in the corresponding map for that name. -/
theorem C6_at_most_one_timer_per_name {cfg : Config} {s : DMState}
    (h : Reach cfg s) (name : String) :
    (s.armed.filter (fun t => decide (t.name = name ∧ t.kind = TimerKind.chk))).length ≤ 1 ∧
    (s.armed.filter (fun t => decide (t.name = name ∧ t.kind = TimerKind.rst))).length ≤ 1 :=
  ⟨inv_armed_count (reach_inv h) name TimerKind.chk,
   inv_armed_count (reach_inv h) name TimerKind.rst⟩

theorem C6_at_most_one_timer_per_name_witness :
    (exS2.armed.filter (fun t => decide (t.name = "xray" ∧ t.kind = TimerKind.chk))).length ≤ 1 ∧
    (exS2.armed.filter (fun t => decide (t.name = "xray" ∧ t.kind = TimerKind.rst))).length ≤ 1 :=
  C6_at_most_one_timer_per_name exS2_reach "xray"

/-- C4: a successful `StartProcess` returns success, installs a fresh
status record (running, zero retries, `LastStart = now`, no recorded exit,
the new OS pid), kills any previously tracked handle for the name before
the new handle is tracked, and preserves the at-most-one-live-handle-per-
name invariant. -/
theorem C4_start_success_contract {cfg : Config} {s : DMState} (h : Reach cfg s)
    (name command : String) (args : List String) (pid now : Nat) :
    (startProcessF s name command args true pid now).1 = true ∧
    ((startProcessF s name command args true pid now).2.status name).map
        (fun st => (st.Running, st.Retries, st.LastStart, st.LastExit, st.PID)) =
      some (true, 0, now, none, pid) ∧
    (∀ old, s.processes name = some old →
      (∀ p ∈ (startProcessF s name command args true pid now).2.alive, p.1 ≠ old.hid) ∧
      (startProcessF s name command args true pid now).2.killedK old.hid = true) ∧
    (∀ n, ((startProcessF s name command args true pid now).2.alive.filter
        (fun p => decide (p.2 = n))).length ≤ 1) := by
  refine ⟨?_, ?_, ?_, ?_⟩
  · unfold startProcessF
    dsimp only
    rw [if_pos rfl]
  · rw [startProcessF_status_ok]
    split <;> rfl
  · intro old hold
    constructor
    · intro p hp
      rw [startProcessF_ok_alive] at hp
      rcases List.mem_cons.1 hp with rfl | hp
      · have hb := (reach_inv h).procHid name old hold
        rw [killTrackedF_nextHid]
        dsimp only
        omega
      · rw [killTrackedF_some hold] at hp
        dsimp only at hp
        rw [List.mem_filter, decide_eq_true_eq] at hp
        exact hp.2
    · rw [startProcessF_ok_killedK, killTrackedF_some hold]
      dsimp only
      simp
  · intro n
    exact inv_alive_count (reach_inv (Reach.step (Ev.start name command args true pid now) h)) n

theorem C4_start_success_contract_witness :
    (startProcessF (initDM defaultConfig) "xray" "/app/xray" [] true 100 5).1 = true ∧
    ((startProcessF (initDM defaultConfig) "xray" "/app/xray" [] true 100 5).2.status "xray").map
        (fun st => (st.Running, st.Retries, st.LastStart, st.LastExit, st.PID)) =
      some (true, 0, 5, none, 100) ∧
    (∀ old, (initDM defaultConfig).processes "xray" = some old →
      (∀ p ∈ (startProcessF (initDM defaultConfig) "xray" "/app/xray" [] true 100 5).2.alive,
        p.1 ≠ old.hid) ∧
      (startProcessF (initDM defaultConfig) "xray" "/app/xray" [] true 100 5).2.killedK
        old.hid = true) ∧
    (∀ n, ((startProcessF (initDM defaultConfig) "xray" "/app/xray" [] true 100 5).2.alive.filter
        (fun p => decide (p.2 = n))).length ≤ 1) :=
  C4_start_success_contract Reach.init "xray" "/app/xray" [] 100 5

/-- C5: when `scheduleRestart` arms a timer for a record whose current
retry count is `retries ≥ 1` (and no `int64` overflow occurs), the armed
delay is exactly `min(baseDelay * 2^(retries-1), 60s)` in nanoseconds,
where `baseDelay` is the configured `DaemonRestartDelay` in milliseconds;
and the default configured base delay is 10000 ms = 10 s. -/
theorem C5_backoff_delay {s : DMState} (name : String) (st : ProcessStatus)
    (hst : s.status name = some st) (h1 : 1 ≤ st.Retries) (h2 : st.Retries ≤ 63)
    (h0 : 0 ≤ s.cfg.DaemonRestartDelay)
    (hb : s.cfg.DaemonRestartDelay * 1000000 * 2 ^ (st.Retries - 1) < 2 ^ 63) :
    (scheduleRestartF s name).armed.head? = some
      { tid := s.nextTid, name := name, kind := TimerKind.rst,
        delayNs := min (s.cfg.DaemonRestartDelay * 1000000 * 2 ^ (st.Retries - 1))
          (60 * 1000000000) } ∧
    defaultConfig.DaemonRestartDelay = 10000 := by
  constructor
  · rw [scheduleRestartF_some hst]
    dsimp only
    rw [goRestartDelayNs_eq _ _ h1 h2 h0 hb]
    rfl
  · rfl

theorem C5_backoff_delay_witness :
    (scheduleRestartF exS2 "xray").armed.head? = some
      { tid := exS2.nextTid, name := "xray", kind := TimerKind.rst,
        delayNs := min (exS2.cfg.DaemonRestartDelay * 1000000 * 2 ^ (1 - 1))
          (60 * 1000000000) } ∧
    defaultConfig.DaemonRestartDelay = 10000 :=
  C5_backoff_delay "xray"
    ⟨false, 1, 5, some 9, 100, "xray", "", ""⟩
    (by decide) (by decide) (by decide) (by decide) (by decide)

/-- Unfolding `RestartProcess` when the name is tracked and has a status
record. -/
theorem restartProcessF_some {s : DMState} {name : String} {c : GoCmd}
    {st : ProcessStatus} (hp : s.processes name = some c)
    (hst : s.status name = some st) :
    restartProcessF s name = (false,
      { s with alive := s.alive.filter (fun p => decide (p.1 ≠ c.hid)),
               killedK := fun h => s.killedK h || decide (h = c.hid),
               armed := stopTid (stopTid s.armed (s.checkTimers name)) (s.restartTimers name),
               checkTimers := updMap s.checkTimers name none,
               restartTimers := updMap s.restartTimers name none,
               status := updMap s.status name
                 (some { st with Running := false, Retries := 0 }) }) := by
  unfold restartProcessF
  rw [hp]
  try dsimp only
  rw [hst]

/-! ### Claims C1, C2, C3 -/

/-- State after the armed restart timer (identifier 1) for "xray" fires:
in this code variant the callback only logs, so nothing is relaunched. -/
def exS3 : DMState := run exS2 (Ev.fire 1 false)

/-- C1 (code_bug evidence): after the abnormal exit of "xray" a restart
timer is armed (first conjunct); when it fires, the record is still not
running, no child is OS-alive, no new handle has been spawned
(`nextHid` still 1), and the tracked handle is unchanged — the relaunch
callback promised by the claim never re-enters `StartProcess`. -/
theorem C1_restart_timer_fires_without_relaunch :
    (exS2.armed.filter (fun t => decide (t.name = "xray" ∧ t.kind = TimerKind.rst))).length = 1 ∧
    (exS3.status "xray").map (fun st => st.Running) = some false ∧
    exS3.alive = [] ∧
    exS3.nextHid = 1 ∧
    exS3.processes "xray" = exS2.processes "xray" :=
  ⟨rfl, rfl, rfl, rfl, rfl⟩

/-- State after an explicit restart request for "xray": the supervisor
deliberately kills handle 0 and resets retries to 0. -/
def exSR : DMState := run exS1 (Ev.restartReq "xray")

/-- State after the killed child's `Wait` then returns (necessarily with a
non-nil error, since the child died of SIGKILL). -/
def exSR2 : DMState := run exSR (Ev.exit 0 "xray" true 9)

/-- C2 counterexample: handle 0 was deliberately killed by an explicit
restart (`killedK 0 = true`, retries reset to 0, monitor still pending),
yet when its exit is observed the monitor treats the non-nil `Wait` error
as abnormal: retries becomes 1 and a restart timer is armed — the claim
says a deliberate kill leaves retries unchanged and schedules nothing. -/
theorem C2_deliberate_kill_counted_as_abnormal :
    exSR.killedK 0 = true ∧
    (exSR.status "xray").map (fun st => st.Retries) = some 0 ∧
    (0, "xray") ∈ exSR.monitors ∧
    (exSR2.status "xray").map (fun st => st.Retries) = some 1 ∧
    (exSR2.armed.filter (fun t => decide (t.name = "xray" ∧ t.kind = TimerKind.rst))).length = 1 :=
  ⟨rfl, rfl, by decide, rfl, rfl⟩

/-- C2 (amended): the exit monitor marks the record not running with
`LastExit = now`; abnormality is judged solely by a non-nil `Wait` error
(deliberate kills are not exempted): on an erroring termination retries is
incremented and a restart timer for the name is armed exactly when the
incremented count is still at most `DaemonMaxRetries`; an error-free exit
leaves retries unchanged and arms nothing. -/
theorem C2_exit_monitor_contract {s : DMState} (hid : Nat) (name : String)
    (errExit : Bool) (now : Nat) (st : ProcessStatus)
    (hst : s.status name = some st) :
    ((monitorExitF s hid name errExit now).status name).map
        (fun st2 => (st2.Running, st2.LastExit, st2.Retries)) =
      some (false, some now, if errExit then st.Retries + 1 else st.Retries) ∧
    (errExit = true → ((st.Retries + 1 : Nat) : Int) ≤ s.cfg.DaemonMaxRetries →
      ∃ t, (monitorExitF s hid name errExit now).armed.head? = some t ∧
        t.name = name ∧ t.kind = TimerKind.rst) ∧
    (errExit = true → ¬ (((st.Retries + 1 : Nat) : Int) ≤ s.cfg.DaemonMaxRetries) →
      (monitorExitF s hid name errExit now).armed = s.armed) ∧
    (errExit = false → (monitorExitF s hid name errExit now).armed = s.armed) := by
  unfold monitorExitF
  dsimp only
  rw [hst]
  try dsimp only
  cases errExit
  · rw [if_neg Bool.false_ne_true]
    try dsimp only
    refine ⟨?_, ?_, ?_, ?_⟩
    · rw [updMap_same]
      rfl
    · intro hc
      exact absurd hc (by decide)
    · intro hc
      exact absurd hc (by decide)
    · intro _
      rfl
  · rw [if_pos rfl]
    try dsimp only
    rw [updMap_same]
    try dsimp only
    split
    next hle =>
      refine ⟨?_, ?_, ?_, ?_⟩
      · rw [scheduleRestartF_status]
        try dsimp only
        rw [updMap_same]
        rfl
      · intro _ _
        rw [scheduleRestartF_some (updMap_same _ _ _)]
        exact ⟨_, rfl, rfl, rfl⟩
      · intro _ hnle
        exact absurd hle hnle
      · intro hc
        exact absurd hc (by decide)
    next hnle =>
      refine ⟨?_, ?_, ?_, ?_⟩
      · try dsimp only
        rw [updMap_same]
        rfl
      · intro _ hle
        exact absurd hle hnle
      · intro _ _
        rfl
      · intro hc
        exact absurd hc (by decide)

theorem C2_exit_monitor_contract_witness :
    ((monitorExitF exS1 0 "xray" true 9).status "xray").map
        (fun st2 => (st2.Running, st2.LastExit, st2.Retries)) =
      some (false, some 9, 1) ∧
    (true = true → ((1 : Nat) : Int) ≤ exS1.cfg.DaemonMaxRetries →
      ∃ t, (monitorExitF exS1 0 "xray" true 9).armed.head? = some t ∧
        t.name = "xray" ∧ t.kind = TimerKind.rst) ∧
    (true = true → ¬ (((1 : Nat) : Int) ≤ exS1.cfg.DaemonMaxRetries) →
      (monitorExitF exS1 0 "xray" true 9).armed = exS1.armed) ∧
    (true = false → (monitorExitF exS1 0 "xray" true 9).armed = exS1.armed) :=
  C2_exit_monitor_contract 0 "xray" true 9
    ⟨true, 0, 5, none, 100, "xray", "", ""⟩ rfl

/-- C3: in every reachable, not-shut-down state, `RestartProcess(name)`
errs with the not-found error exactly when no successful start for `name`
ever happened; otherwise it succeeds — regardless of the prior retry count
or whether the process is still running — kills the tracked handle, drops
and stops both timers for the name, resets the record to not running with
zero retries, and relaunches nothing (no new handle, monitors untouched). -/
theorem C3_restart_contract {cfg : Config} {s : DMState} (h : Reach cfg s)
    (hcan : s.cancelled = false) (name : String) :
    ((restartProcessF s name).1 = true ↔ s.everStarted name = false) ∧
    (s.everStarted name = true →
      ((restartProcessF s name).2.status name).map
          (fun st => (st.Running, st.Retries)) = some (false, 0) ∧
      (restartProcessF s name).2.checkTimers name = none ∧
      (restartProcessF s name).2.restartTimers name = none ∧
      (∀ t ∈ (restartProcessF s name).2.armed, t.name ≠ name) ∧
      (∀ p ∈ (restartProcessF s name).2.alive, p.2 ≠ name) ∧
      (restartProcessF s name).2.nextHid = s.nextHid ∧
      (restartProcessF s name).2.monitors = s.monitors) := by
  have hi := reach_inv h
  have hdom := hi.startedDom hcan name
  rcases hp : s.processes name with _ | c
  · have hev : s.everStarted name = false := by
      cases hev2 : s.everStarted name
      · rfl
      · exfalso
        have := hdom.mpr hev2
        rw [hp] at this
        simp at this
    have h1 : (restartProcessF s name).1 = true := by
      unfold restartProcessF
      rw [hp]
    refine ⟨⟨fun _ => hev, fun _ => h1⟩, ?_⟩
    intro hever
    rw [hever] at hev
    exact absurd hev (by decide)
  · have hev : s.everStarted name = true := by
      apply hdom.mp
      rw [hp]
      rfl
    have hsome : (s.status name).isSome := by
      apply hi.statusDom name
      rw [hp]
      rfl
    rcases hst : s.status name with _ | st
    · rw [hst] at hsome
      simp at hsome
    · have hfalse : (restartProcessF s name).1 = false := by
        rw [restartProcessF_some hp hst]
      constructor
      · constructor
        · intro h1
          rw [hfalse] at h1
          exact absurd h1 (by decide)
        · intro h2
          rw [hev] at h2
          exact absurd h2 (by decide)
      · intro _
        rw [restartProcessF_some hp hst]
        dsimp only
        refine ⟨?_, ?_, ?_, ?_, ?_, rfl, rfl⟩
        · rw [updMap_same]
          rfl
        · rw [updMap_same]
        · rw [updMap_same]
        · intro t ht hn
          have htm : t ∈ s.armed := mem_stopTid (mem_stopTid ht)
          have hmap := hi.armedMapped t htm
          rcases hkind : t.kind
          · have hold := hmap.1 hkind
            rw [hn] at hold
            have hin : t ∈ stopTid s.armed (s.checkTimers name) := mem_stopTid ht
            rw [hold] at hin
            exact tid_ne_of_mem_stopTid hin rfl
          · have hold := hmap.2 hkind
            rw [hn] at hold
            rw [hold] at ht
            exact tid_ne_of_mem_stopTid ht rfl
        · intro p hpm hn
          rw [List.mem_filter, decide_eq_true_eq] at hpm
          obtain ⟨c2, hc2, hh2⟩ := hi.aliveMapped p hpm.1
          rw [hn, hp] at hc2
          have := Option.some.inj hc2
          subst this
          exact hpm.2 hh2.symm

theorem C3_restart_contract_witness :
    ((restartProcessF exS1 "xray").1 = true ↔ exS1.everStarted "xray" = false) ∧
    (exS1.everStarted "xray" = true →
      ((restartProcessF exS1 "xray").2.status "xray").map
          (fun st => (st.Running, st.Retries)) = some (false, 0) ∧
      (restartProcessF exS1 "xray").2.checkTimers "xray" = none ∧
      (restartProcessF exS1 "xray").2.restartTimers "xray" = none ∧
      (∀ t ∈ (restartProcessF exS1 "xray").2.armed, t.name ≠ "xray") ∧
      (∀ p ∈ (restartProcessF exS1 "xray").2.alive, p.2 ≠ "xray") ∧
      (restartProcessF exS1 "xray").2.nextHid = exS1.nextHid ∧
      (restartProcessF exS1 "xray").2.monitors = exS1.monitors) :=
  C3_restart_contract exS1_reach rfl "xray"

/-! ### Claims C7, C8, C9, C10 -/

/-- State after the armed health-check timer (identifier 0) for "xray"
fires with a failing zero-signal probe. -/
def exSH : DMState := run exS1 (Ev.fire 0 true)

/-- C7 counterexample: a health-check timer for "xray" is armed and its
probe fails, yet the retry counter stays 0 — the claim says every failed
health check increments it (it would have to become 1). -/
theorem C7_failed_health_check_does_not_increment :
    (exS1.armed.filter (fun t => decide (t.name = "xray" ∧ t.kind = TimerKind.chk))).length = 1 ∧
    (exS1.status "xray").map (fun st => st.Retries) = some 0 ∧
    (exSH.status "xray").map (fun st => st.Retries) = some 0 ∧
    ¬ ((exSH.status "xray").map (fun st => st.Retries) = some 1) :=
  ⟨rfl, rfl, rfl, by decide⟩

/-- C7 (amended): the retry counter never decreases under any event other
than an explicit restart request or a (re)start of the same name; firing a
timer — in particular a failed health check — leaves it unchanged; and an
abnormal exit observed by a pending monitor increments it by exactly 1. -/
theorem C7_retries_discipline (name : String) :
    (∀ (s : DMState) (e : Ev), isResetEv e name = false →
      retriesOf s name ≤ retriesOf (run s e) name) ∧
    (∀ (s : DMState) (tid : Nat) (sigErr : Bool),
      retriesOf (run s (Ev.fire tid sigErr)) name = retriesOf s name) ∧
    (∀ (s : DMState) (hid now : Nat) (st : ProcessStatus),
      s.status name = some st → (hid, name) ∈ s.monitors →
      retriesOf (run s (Ev.exit hid name true now)) name = st.Retries + 1) := by
  refine ⟨?_, ?_, ?_⟩
  · intro s e hres
    cases e with
    | start n command args ok pid now =>
      have hne : name ≠ n := by
        intro hq
        subst hq
        simp [isResetEv] at hres
      simp only [run, retriesOf]
      rw [startProcessF_retries_other s n command args ok pid now name hne]
    | exit hid n errExit now =>
      simp only [run, retriesOf]
      split
      · exact monitorExitF_retries_mono s hid n errExit now name
      · exact Nat.le_refl _
    | fire tid sigErr =>
      simp only [run, retriesOf]
      rw [fireTimerF_retries]
    | restartReq n =>
      have hne : name ≠ n := by
        intro hq
        subst hq
        simp [isResetEv] at hres
      simp only [run, retriesOf]
      rw [restartProcessF_retries_other s n name hne]
    | setTunnel ty dom =>
      simp only [run, retriesOf]
      rw [setTunnelInfoF_retries]
    | cleanup =>
      simp only [run, retriesOf]
      rw [cleanupF_retries]
  · intro s tid sigErr
    simp only [run, retriesOf]
    rw [fireTimerF_retries]
  · intro s hid now st hst hmem
    simp only [run, retriesOf]
    rw [if_pos hmem, monitorExitF_retries_incr s hid name now st hst]
    rfl

theorem C7_retries_discipline_witness :
    (retriesOf exS1 "xray" ≤ retriesOf (run exS1 Ev.cleanup) "xray") ∧
    (retriesOf (run exS1 (Ev.fire 0 true)) "xray" = retriesOf exS1 "xray") ∧
    (retriesOf (run exS1 (Ev.exit 0 "xray" true 9)) "xray" = 0 + 1) :=
  ⟨(C7_retries_discipline "xray").1 exS1 Ev.cleanup rfl,
   (C7_retries_discipline "xray").2.1 exS1 0 true,
   (C7_retries_discipline "xray").2.2 exS1 0 9
     ⟨true, 0, 5, none, 100, "xray", "", ""⟩ rfl (by decide)⟩

/-- State after `Cleanup` is called while the exit monitor of "xray" is
still pending. -/
def exSC : DMState := run exS1 Ev.cleanup

/-- C8 counterexample: `Cleanup` returns while the exit-monitor goroutine
of handle 0 is still pending — `dm.wg.Wait()` has nothing registered, so
the claim that shutdown waits for internal worker goroutines to finish
before returning is false at this input. -/
theorem C8_cleanup_leaves_monitor_pending :
    exSC.cancelled = true ∧ exSC.monitors = [(0, "xray")] ∧ exSC.monitors ≠ [] :=
  ⟨rfl, rfl, by decide⟩

/-- C8 (amended): `Cleanup` cancels the context, stops every armed timer
and drops both timer maps, kills every tracked (OS-alive) process and
drops the process map, and marks every surviving record not running; it
does not join the pending exit monitors (the wait group is never added
to), so `monitors` is untouched. -/
theorem C8_cleanup_contract {cfg : Config} {s : DMState} (h : Reach cfg s) :
    (cleanupF s).cancelled = true ∧
    (cleanupF s).armed = [] ∧
    (∀ n, (cleanupF s).checkTimers n = none ∧ (cleanupF s).restartTimers n = none) ∧
    (cleanupF s).alive = [] ∧
    (∀ n, (cleanupF s).processes n = none) ∧
    (∀ n st2, (cleanupF s).status n = some st2 → st2.Running = false) ∧
    (cleanupF s).monitors = s.monitors := by
  have hi := reach_inv h
  refine ⟨rfl, ?_, fun n => ⟨rfl, rfl⟩, ?_, fun n => rfl, ?_, rfl⟩
  · apply List.eq_nil_iff_forall_not_mem.mpr
    intro t ht
    unfold cleanupF at ht
    dsimp only at ht
    rw [List.mem_filter] at ht
    obtain ⟨htm, hcond⟩ := ht
    have hmap := hi.armedMapped t htm
    rcases hkind : t.kind
    · rw [hmap.1 hkind] at hcond
      simp at hcond
    · rw [hmap.2 hkind] at hcond
      simp at hcond
  · apply List.eq_nil_iff_forall_not_mem.mpr
    intro p hpm
    unfold cleanupF at hpm
    dsimp only at hpm
    rw [List.mem_filter] at hpm
    obtain ⟨hp, hcond⟩ := hpm
    obtain ⟨c, hc, hchid⟩ := hi.aliveMapped p hp
    rw [hc] at hcond
    simp [hchid] at hcond
  · intro n st2 hstn
    unfold cleanupF at hstn
    dsimp only at hstn
    rcases hs : s.status n with _ | st0
    · rw [hs] at hstn
      simp at hstn
    · rw [hs] at hstn
      rw [← Option.some.inj hstn]

theorem C8_cleanup_contract_witness :
    (cleanupF exS1).cancelled = true ∧
    (cleanupF exS1).armed = [] ∧
    (∀ n, (cleanupF exS1).checkTimers n = none ∧ (cleanupF exS1).restartTimers n = none) ∧
    (cleanupF exS1).alive = [] ∧
    (∀ n, (cleanupF exS1).processes n = none) ∧
    (∀ n st2, (cleanupF exS1).status n = some st2 → st2.Running = false) ∧
    (cleanupF exS1).monitors = exS1.monitors :=
  C8_cleanup_contract exS1_reach

/-- C9: when the tracked process of `name` exists and the zero-signal
probe succeeds, `checkProcessHealth` sets the record's `Running` flag to
`true` — even when the record was previously marked not running, so a
stale not-running record is flipped back by a successful probe. -/
theorem C9_health_probe_success_sets_running {s : DMState} (name : String)
    (c : GoCmd) (st : ProcessStatus) (hp : s.processes name = some c)
    (hst : s.status name = some st) (_hnr : st.Running = false) :
    (checkProcessHealthF s name false).status name = some { st with Running := true } := by
  unfold checkProcessHealthF
  dsimp only
  rw [hp]
  try dsimp only
  rw [if_neg Bool.false_ne_true]
  try dsimp only
  rw [hst]
  try dsimp only
  rw [startHealthCheckF_status]
  try dsimp only
  rw [updMap_same]

/-- State after "xray" exits normally at time 9: the record is marked not
running while the handle stays tracked. -/
def exSE : DMState := run exS1 (Ev.exit 0 "xray" false 9)

theorem C9_health_probe_success_sets_running_witness :
    (checkProcessHealthF exSE "xray" false).status "xray" =
      some ⟨true, 0, 5, some 9, 100, "xray", "", ""⟩ :=
  C9_health_probe_success_sets_running "xray" ⟨"/app/xray", [], 100, 0⟩
    ⟨false, 0, 5, some 9, 100, "xray", "", ""⟩ rfl rfl rfl

/-- C10: calling `SetTunnelInfo` before "tunnel" was ever started stores
the tags on the manager, and a later successful start of "tunnel" copies
them into the fresh status record; a fresh record of any other name gets
empty tags. -/
theorem C10_tunnel_info_before_start {s : DMState}
    (ty dom name command command2 : String) (args args2 : List String)
    (pid pid2 now now2 : Nat) (hst : s.status "tunnel" = none)
    (hn : name ≠ "tunnel") :
    ((startProcessF (setTunnelInfoF s ty dom) "tunnel" command args true pid now).2.status
        "tunnel").map (fun st => (st.Running, st.Type_, st.Domain)) =
      some (true, ty, dom) ∧
    ((startProcessF (setTunnelInfoF s ty dom) name command2 args2 true pid2 now2).2.status
        name).map (fun st => (st.Type_, st.Domain)) = some ("", "") := by
  rw [setTunnelInfoF_none hst]
  constructor
  · rw [startProcessF_status_ok]
    rw [if_pos rfl]
    rfl
  · rw [startProcessF_status_ok]
    rw [if_neg hn]
    rfl

theorem C10_tunnel_info_before_start_witness :
    ((startProcessF (setTunnelInfoF (initDM defaultConfig) "token" "example.com")
        "tunnel" "/app/cf" [] true 200 7).2.status "tunnel").map
        (fun st => (st.Running, st.Type_, st.Domain)) = some (true, "token", "example.com") ∧
    ((startProcessF (setTunnelInfoF (initDM defaultConfig) "token" "example.com")
        "xray" "/app/xray" [] true 100 5).2.status "xray").map
        (fun st => (st.Type_, st.Domain)) = some ("", "") :=
  C10_tunnel_info_before_start "token" "example.com" "xray" "/app/cf" "/app/xray"
    [] [] 200 100 7 5 rfl (by decide)

end ArgoGo
